import Mathlib

/-!
Verification of the real-time arbitrage detection pipeline
(stream interceptor, arbitrage engine, health supervisor).

The definitions below are a shallow embedding of the Python sources:

* `src/engine.py`       — `ArbitrageEngine` (odds storage and detection),
* `src/health_monitor.py` — `HealthMonitor` (per-component health records),
* `src/interceptor.py`  — `Interceptor` (reconnection backoff state machine),

together with a small explicit-heap model of Python dictionaries used to
reason about the `.copy()` semantics of the statistics / status accessors.

Numeric values (decimal odds, timestamps) are idealized as rationals `ℚ`;
all the concrete inputs used below are exactly representable, so no
floating-point rounding is in play at any compared value.
-/

namespace Acheron

/-! ## Engine model (`src/engine.py`)

The Redis hash stored by `ArbitrageEngine._store_odds` holds the fields
`home`, `away`, `draw`, `timestamp` (plus a `market_type` field that is
written but never read anywhere in the repository; it is omitted here).
The Redis keyspace is modelled as a partial map from key strings to
stored records. -/

/-- One stored odds hash (`_store_odds` writes exactly these numeric
fields; missing outcomes are defaulted to `0` by `odds.get(k, 0)`). -/
structure OddsRec where
  home : ℚ
  away : ℚ
  draw : ℚ
  timestamp : ℚ
deriving DecidableEq

/-- An incoming odds dictionary: each of the `home`/`away`/`draw` keys may
be absent (`dict.get` with default `0` is applied at use sites). -/
structure OddsMsg where
  home : Option ℚ
  away : Option ℚ
  draw : Option ℚ
deriving DecidableEq

/-- `odds.get(k, 0)`. -/
def oget (o : Option ℚ) : ℚ := o.getD 0

/-- The Redis keyspace: key string to stored hash. -/
def Store : Type := String → Option OddsRec

/-- Overwrite one key (`HSET` of every field, as `_store_odds` does). -/
def setKey (s : Store) (k : String) (v : OddsRec) : Store :=
  fun x => if x = k then some v else s x

/-- The empty keyspace. -/
def emptyStore : Store := fun _ => none

/-- Key built in `process_odds_update`: `f"odds:pinnacle:{event_id}:{market_type}"`. -/
def pinnacleKey (eventId marketType : String) : String :=
  "odds:pinnacle:" ++ eventId ++ ":" ++ marketType

/-- Key built in `process_odds_update`: `f"odds:soft:{event_id}:{market_type}"`
(one shared slot for every non-reference book). -/
def softKey (eventId marketType : String) : String :=
  "odds:soft:" ++ eventId ++ ":" ++ marketType

/-- Python's `str.lower()` (character-wise ASCII lowering, which is what it
does on the book names in play). -/
def strLower (s : String) : String := ⟨s.data.map Char.toLower⟩

/-- The designated reference source: `book.lower() == 'pinnacle'`. -/
def refBook : String := "pinnacle"

/-- `_store_odds`: write the hash under `key` with defaulted fields and the
admission timestamp. -/
def store_odds (s : Store) (key : String) (odds : OddsMsg) (ts : ℚ) : Store :=
  setKey s key ⟨oget odds.home, oget odds.away, oget odds.draw, ts⟩

/-- Presentation rounding to `n` decimal places (`"%.2f"` / `"%.4f"`
format strings); none of the concrete values below is a half-way tie, so
round-half-up agrees with the float formatting. -/
def roundq (n : ℕ) (x : ℚ) : ℚ := (round (x * 10 ^ n) : ℤ) / 10 ^ n

/-- Result dictionary built by `_check_arbitrage_python`; `profitPct` and
`impliedProb` carry the presented (rounded) values, the legs carry the raw
odds. -/
structure ArbResult where
  profitPct : ℚ
  impliedProb : ℚ
  leg1Odd : ℚ
  leg2Odd : ℚ
deriving DecidableEq

/-- `_check_arbitrage_python`: fetch the soft-book hash, reject when absent
or when its timestamp is more than 60 s old, then pair the reference `home`
price with the soft `away` price and emit iff the implied probability is
strictly below 1. -/
def check_arbitrage_python (s : Store) (sKey : String) (pOdds : OddsMsg) (now : ℚ) :
    Option ArbResult :=
  match s sKey with
  | none => none
  | some sd =>
    if now - sd.timestamp > 60 then none
    else
      let homeOdd := oget pOdds.home
      let softAway := sd.away
      if homeOdd > 0 ∧ softAway > 0 then
        let prob := 1 / homeOdd + 1 / softAway
        if prob < 1 then
          some ⟨roundq 2 ((1 / prob - 1) * 100), roundq 4 prob, homeOdd, softAway⟩
        else none
      else none

/-- Result parsed from the inline Lua script's JSON (`profit_pct`, rounded
to two decimals by `string.format`). -/
structure LuaArb where
  profitPct : ℚ
deriving DecidableEq

/-- The inline Lua script of `_get_inline_check_arb_script` (the script the
engine registers, since the repository contains no `lua/check_arb.lua`):
it `HSET`s the pinnacle key with the incoming odds, then reads only the
soft key's `away` field — with **no** staleness check — and emits iff
`1/home + 1/soft_away < 1`.  The explicit `homeOdd ≠ 0` guard encodes
Lua's real arithmetic, where `1/0 = inf` makes the `< 1` comparison false. -/
def check_arbitrage_lua_inline (s : Store) (pKey sKey : String) (pOdds : OddsMsg)
    (ts : ℚ) : Store × Option LuaArb :=
  let homeOdd := oget pOdds.home
  let s1 := setKey s pKey ⟨homeOdd, oget pOdds.away, oget pOdds.draw, ts⟩
  match s1 sKey with
  | none => (s1, none)
  | some sd =>
    if sd.away = 0 then (s1, none)
    else if homeOdd ≠ 0 ∧ 1 / homeOdd + 1 / sd.away < 1 then
      (s1, some ⟨roundq 2 ((1 / (1 / homeOdd + 1 / sd.away) - 1) * 100)⟩)
    else (s1, none)

/-- Outcome of one `process_odds_update` call: the new keyspace, whether the
arbitrage-detection step ran at all, and the returned opportunity. -/
structure ProcResult where
  store : Store
  detectionRun : Bool
  result : Option LuaArb

/-- `process_odds_update`: build both keys, store the snapshot under the
pinnacle key iff `book.lower() == 'pinnacle'` and under the single shared
soft key otherwise, and run the (Lua-script) arbitrage check iff the update
came from the reference book. -/
def process_odds_update (s : Store) (eventId marketType book : String)
    (odds : OddsMsg) (now : ℚ) : ProcResult :=
  let pKey := pinnacleKey eventId marketType
  let sKey := softKey eventId marketType
  let key := if strLower book = refBook then pKey else sKey
  let s1 := store_odds s key odds now
  if strLower book = refBook then
    let r := check_arbitrage_lua_inline s1 pKey sKey odds now
    ⟨r.1, true, r.2⟩
  else
    ⟨s1, false, none⟩

/-- The two key families never collide: their fixed prefixes have different
lengths (14 vs 10 characters). -/
theorem pinnacleKey_ne_softKey (e m : String) : pinnacleKey e m ≠ softKey e m := by
  intro h
  have hlen := congrArg String.length h
  simp only [pinnacleKey, softKey, String.length_append] at hlen
  have h1 : ("odds:pinnacle:").length = 14 := rfl
  have h2 : ("odds:soft:").length = 10 := rfl
  rw [h1, h2] at hlen
  omega

/-! ### Concrete test data (the spec's worked example)

Reference book posts `{home: 2.15, away: 1.85}` (`43/20`, `37/20`); the
soft book's stored snapshot is `{home: 1.90, away: 2.10}` (`19/10`, `21/10`). -/

/-- Example event id. -/
def exEvent : String := "nhl1"

/-- Example market. -/
def exMarket : String := "moneyline"

/-- A non-reference book. -/
def exSoftBook : String := "bet365"

/-- Another non-reference book. -/
def exSoftBook2 : String := "williamhill"

/-- Reference update `{home: 2.15, away: 1.85}` (no draw entry). -/
def exPinnacleOdds : OddsMsg := ⟨some (43/20), some (37/20), none⟩

/-- Soft-book snapshot `{home: 1.90, away: 2.10}` observed at `ts`. -/
def exSoftRec (ts : ℚ) : OddsRec := ⟨19/10, 21/10, 0, ts⟩

/-- A keyspace whose only entry is a soft snapshot observed at time 0. -/
def staleSoftStore : Store := setKey emptyStore (softKey exEvent exMarket) (exSoftRec 0)

/-- A keyspace whose only entry is a soft snapshot observed at time 100. -/
def freshSoftStore : Store := setKey emptyStore (softKey exEvent exMarket) (exSoftRec 100)

/-- The implied probability of the worked example at full precision:
`1/(43/20) + 1/(21/10) = 20/43 + 10/21 = 850/903`. -/
theorem example_implied_prob : 1 / ((43 : ℚ)/20) + 1 / ((21 : ℚ)/10) = 850/903 := by
  norm_num

/-- The profit percentage of the worked example presented by `"%.2f"`:
`(1/(850/903) - 1) * 100 = 106/17 ≈ 6.2353`, which rounds to `6.24`. -/
theorem example_profit_rounded : roundq 2 ((1 / ((850 : ℚ)/903) - 1) * 100) = 156/25 := by
  have h1 : ((1 / ((850 : ℚ)/903) - 1) * 100) * 10 ^ 2 = 10600/17 := by norm_num
  rw [roundq, h1, round_eq]
  norm_num [Int.floor_eq_iff]

/-- The implied probability of the worked example presented by `"%.4f"`:
`850/903 ≈ 0.94131` rounds to `0.9413` (not `0.9415`). -/
theorem example_prob_rounded : roundq 4 ((850 : ℚ)/903) = 9413/10000 := by
  have h1 : ((850 : ℚ)/903) * 10 ^ 4 = 8500000/903 := by norm_num
  rw [roundq, h1, round_eq]
  norm_num [Int.floor_eq_iff]

/-! ### Claims about the engine -/

/-- C4 (confirmed): the arbitrage-detection step runs if and only if the
update's book is the reference source compared case-insensitively
(`book.lower() == 'pinnacle'`); every non-reference update just stores the
snapshot under the shared soft key and returns `None` with no detection. -/
theorem detection_iff_reference_source (s : Store) (e m book : String)
    (odds : OddsMsg) (now : ℚ) :
    ((process_odds_update s e m book odds now).detectionRun = true ↔ strLower book = refBook)
    ∧ (strLower book ≠ refBook →
        (process_odds_update s e m book odds now).result = none
        ∧ (process_odds_update s e m book odds now).store = store_odds s (softKey e m) odds now) := by
  unfold process_odds_update
  by_cases hb : strLower book = refBook <;> simp [hb]

/-- Witness for C4 at a concrete non-reference book. -/
theorem detection_iff_reference_source_witness :
    strLower exSoftBook ≠ refBook
    ∧ (process_odds_update emptyStore exEvent exMarket exSoftBook exPinnacleOdds 100).result = none :=
  ⟨by decide,
   ((detection_iff_reference_source emptyStore exEvent exMarket exSoftBook exPinnacleOdds 100).2
      (by decide)).1⟩

/-- C9 (confirmed): every non-reference book writes to the one shared
counterparty slot `odds:soft:{event}:{market}` — two different soft books
produce identical keyspaces — and both detection paths read counterparty
data only from that single slot. -/
theorem soft_books_share_single_slot (s : Store) (e m b1 b2 : String) (odds : OddsMsg) (now : ℚ)
    (h1 : strLower b1 ≠ refBook) (h2 : strLower b2 ≠ refBook) :
    (process_odds_update s e m b1 odds now).store = (process_odds_update s e m b2 odds now).store
    ∧ (process_odds_update s e m b1 odds now).store = store_odds s (softKey e m) odds now
    ∧ (∀ sA sB : Store, sA (softKey e m) = sB (softKey e m) →
        (check_arbitrage_lua_inline sA (pinnacleKey e m) (softKey e m) odds now).2
          = (check_arbitrage_lua_inline sB (pinnacleKey e m) (softKey e m) odds now).2)
    ∧ (∀ sA sB : Store, sA (softKey e m) = sB (softKey e m) →
        check_arbitrage_python sA (softKey e m) odds now
          = check_arbitrage_python sB (softKey e m) odds now) := by
  refine ⟨?_, ?_, ?_, ?_⟩
  · unfold process_odds_update
    simp [h1, h2]
  · unfold process_odds_update
    simp [h1]
  · intro sA sB hAB
    have hk : softKey e m ≠ pinnacleKey e m := (pinnacleKey_ne_softKey e m).symm
    unfold check_arbitrage_lua_inline
    simp only [setKey, if_neg hk, hAB]
    cases sB (softKey e m) with
    | none => rfl
    | some sd =>
      dsimp only
      by_cases hz : sd.away = 0
      · rw [if_pos hz, if_pos hz]
      · rw [if_neg hz, if_neg hz]
        by_cases hp : oget odds.home ≠ 0 ∧ 1 / oget odds.home + 1 / sd.away < 1
        · rw [if_pos hp, if_pos hp]
        · rw [if_neg hp, if_neg hp]
  · intro sA sB hAB
    unfold check_arbitrage_python
    rw [hAB]

/-- Witness for C9: two concrete soft books overwrite the same slot. -/
theorem soft_books_share_single_slot_witness :
    (process_odds_update emptyStore exEvent exMarket exSoftBook exPinnacleOdds 100).store
      = (process_odds_update emptyStore exEvent exMarket exSoftBook2 exPinnacleOdds 100).store :=
  (soft_books_share_single_slot emptyStore exEvent exMarket exSoftBook exSoftBook2
    exPinnacleOdds 100 (by decide) (by decide)).1

/-- Whatever the detection outcome, the inline Lua script leaves the
keyspace with the pinnacle key overwritten by the incoming odds. -/
theorem lua_inline_store (s : Store) (pKey sKey : String) (odds : OddsMsg) (ts : ℚ) :
    (check_arbitrage_lua_inline s pKey sKey odds ts).1
      = setKey s pKey ⟨oget odds.home, oget odds.away, oget odds.draw, ts⟩ := by
  unfold check_arbitrage_lua_inline
  dsimp only
  cases hsk : (setKey s pKey ⟨oget odds.home, oget odds.away, oget odds.draw, ts⟩) sKey with
  | none => rfl
  | some sd =>
    dsimp only
    by_cases hz : sd.away = 0
    · rw [if_pos hz]
    · rw [if_neg hz]
      by_cases hp : oget odds.home ≠ 0 ∧ 1 / oget odds.home + 1 / sd.away < 1
      · rw [if_pos hp]
      · rw [if_neg hp]

/-- C3 counterexample: an update whose price map is empty is **not**
rejected — `process_odds_update` stores a snapshot of defaulted zeros
(non-positive prices) under the soft key, so the store does not stay
unchanged and stored snapshots can hold non-positive prices. -/
theorem empty_update_still_stored :
    (process_odds_update emptyStore exEvent exMarket exSoftBook ⟨none, none, none⟩ 100).store
      (softKey exEvent exMarket) = some ⟨0, 0, 0, 100⟩ := by
  have hb : strLower exSoftBook ≠ refBook := by decide
  simp [process_odds_update, store_odds, setKey, oget, hb]

/-- C3 amended: `process_odds_update` performs no validation at all — every
call writes a snapshot whose `home`/`away`/`draw` fields are the incoming
values with missing keys defaulted to `0`, under the soft key for
non-reference books and under the pinnacle key for the reference book. -/
theorem update_always_stored (s : Store) (e m b : String) (odds : OddsMsg) (now : ℚ) :
    (strLower b ≠ refBook →
      (process_odds_update s e m b odds now).store (softKey e m)
        = some ⟨oget odds.home, oget odds.away, oget odds.draw, now⟩)
    ∧ (strLower b = refBook →
      (process_odds_update s e m b odds now).store (pinnacleKey e m)
        = some ⟨oget odds.home, oget odds.away, oget odds.draw, now⟩) := by
  constructor
  · intro hb
    simp [process_odds_update, store_odds, setKey, hb]
  · intro hb
    simp [process_odds_update, lua_inline_store, store_odds, setKey, hb]

/-- Witness for the amended C3 at concrete soft and reference updates. -/
theorem update_always_stored_witness :
    (process_odds_update emptyStore exEvent exMarket exSoftBook exPinnacleOdds 100).store
      (softKey exEvent exMarket)
      = some ⟨oget exPinnacleOdds.home, oget exPinnacleOdds.away, oget exPinnacleOdds.draw, 100⟩
    ∧ (process_odds_update emptyStore exEvent exMarket refBook exPinnacleOdds 100).store
      (pinnacleKey exEvent exMarket)
      = some ⟨oget exPinnacleOdds.home, oget exPinnacleOdds.away, oget exPinnacleOdds.draw, 100⟩ :=
  ⟨(update_always_stored emptyStore exEvent exMarket exSoftBook exPinnacleOdds 100).1 (by decide),
   (update_always_stored emptyStore exEvent exMarket refBook exPinnacleOdds 100).2 (by decide)⟩

/-- C2 counterexample: the counterparty snapshot is 90 s old (staleness
bound 60 s), yet the reference-triggered check — which runs through the
inline Lua script — still returns an opportunity: that path performs no
staleness check. -/
theorem lua_path_ignores_staleness :
    staleSoftStore (softKey exEvent exMarket) = some (exSoftRec 0)
    ∧ (90 : ℚ) - (exSoftRec 0).timestamp > 60
    ∧ (process_odds_update staleSoftStore exEvent exMarket refBook exPinnacleOdds 90).result
        ≠ none := by
  refine ⟨by simp [staleSoftStore, setKey], by norm_num [exSoftRec], ?_⟩
  have hb : strLower refBook = refBook := by decide
  simp [process_odds_update, check_arbitrage_lua_inline, staleSoftStore, setKey, emptyStore,
    store_odds, oget, exPinnacleOdds, exSoftRec, hb, softKey, pinnacleKey, exEvent, exMarket]
  norm_num
  exact fun h => Option.noConfusion h

/-- C2 amended: only the Python fallback path enforces the staleness bound —
there, a counterparty snapshot older than 60 s never yields an opportunity. -/
theorem python_path_rejects_stale (s : Store) (k : String) (odds : OddsMsg) (now : ℚ)
    (sd : OddsRec) (hs : s k = some sd) (hstale : now - sd.timestamp > 60) :
    check_arbitrage_python s k odds now = none := by
  unfold check_arbitrage_python
  rw [hs]
  dsimp only
  rw [if_pos hstale]

/-- Witness for the amended C2: the 90 s-old snapshot is rejected on the
Python path. -/
theorem python_path_rejects_stale_witness :
    check_arbitrage_python staleSoftStore (softKey exEvent exMarket) exPinnacleOdds 90 = none :=
  python_path_rejects_stale staleSoftStore (softKey exEvent exMarket) exPinnacleOdds 90
    (exSoftRec 0) (by simp [staleSoftStore, setKey]) (by norm_num [exSoftRec])

/-- C5 counterexample: at the spec's own example (reference home `2.15`,
counterparty away `2.10`, fresh data) the code produces implied probability
`850/903`, presented as `0.9413`, and profit presented as `6.24` — the
claim's stated values `0.9415` and `6.21%` match neither the full-precision
sum nor the rounded presentations. -/
theorem example_numbers_cex :
    check_arbitrage_python freshSoftStore (softKey exEvent exMarket) exPinnacleOdds 100
      = some ⟨156/25, 9413/10000, 43/20, 21/10⟩
    ∧ ((156 : ℚ)/25 ≠ 621/100)
    ∧ ((9413 : ℚ)/10000 ≠ 9415/10000)
    ∧ (1 / ((43 : ℚ)/20) + 1 / ((21 : ℚ)/10) ≠ 9415/10000) := by
  refine ⟨?_, by norm_num, by norm_num, by norm_num⟩
  have h1 : freshSoftStore (softKey exEvent exMarket) = some (exSoftRec 100) := by
    simp [freshSoftStore, setKey]
  unfold check_arbitrage_python
  rw [h1]
  dsimp only
  rw [if_neg (by norm_num [exSoftRec]), if_pos ⟨by norm_num [exPinnacleOdds, oget],
    by norm_num [exSoftRec]⟩, if_pos (by norm_num [exPinnacleOdds, exSoftRec, oget])]
  have hp : 1 / oget exPinnacleOdds.home + 1 / (exSoftRec 100).away = 850/903 := by
    norm_num [exPinnacleOdds, exSoftRec, oget]
  rw [hp, example_profit_rounded, example_prob_rounded]
  norm_num [exPinnacleOdds, exSoftRec, oget]

/-- C5 amended: with a present, fresh counterparty snapshot and strictly
positive paired prices, the Python detector returns an opportunity iff the
full-precision implied probability `1/home + 1/soft_away` is strictly below
1, carrying profit `(1/prob − 1)·100` rounded to 2 decimals and the implied
probability rounded to 4 decimals, for presentation only. -/
theorem detection_formula (s : Store) (k : String) (odds : OddsMsg) (now : ℚ) (sd : OddsRec)
    (hs : s k = some sd) (hfresh : ¬(now - sd.timestamp > 60))
    (hhome : oget odds.home > 0) (haway : sd.away > 0) :
    (1 / oget odds.home + 1 / sd.away < 1 →
      check_arbitrage_python s k odds now
        = some ⟨roundq 2 ((1 / (1 / oget odds.home + 1 / sd.away) - 1) * 100),
                roundq 4 (1 / oget odds.home + 1 / sd.away), oget odds.home, sd.away⟩)
    ∧ (¬(1 / oget odds.home + 1 / sd.away < 1) →
      check_arbitrage_python s k odds now = none) := by
  unfold check_arbitrage_python
  rw [hs]
  dsimp only
  rw [if_neg hfresh, if_pos ⟨hhome, haway⟩]
  constructor
  · intro hp
    rw [if_pos hp]
  · intro hp
    rw [if_neg hp]

/-- Witness for the amended C5 at the worked example. -/
theorem detection_formula_witness :
    check_arbitrage_python freshSoftStore (softKey exEvent exMarket) exPinnacleOdds 100
      = some ⟨roundq 2 ((1 / (1 / oget exPinnacleOdds.home + 1 / (exSoftRec 100).away) - 1) * 100),
              roundq 4 (1 / oget exPinnacleOdds.home + 1 / (exSoftRec 100).away),
              oget exPinnacleOdds.home, (exSoftRec 100).away⟩ :=
  (detection_formula freshSoftStore (softKey exEvent exMarket) exPinnacleOdds 100 (exSoftRec 100)
    (by simp [freshSoftStore, setKey]) (by norm_num [exSoftRec])
    (by norm_num [exPinnacleOdds, oget]) (by norm_num [exSoftRec])).1
    (by norm_num [exPinnacleOdds, exSoftRec, oget])

/-! ## Health supervisor model (`src/health_monitor.py`)

`HealthMonitor` keeps one record per registered component; the monitoring
loop calls `_mark_component_healthy` / `_mark_component_unhealthy` on it
after each probe.  The Booleans returned below record whether the call
emitted its notification (`recovered` / persistent-failure alert). -/

/-- Component status strings. -/
inductive HStatus where
  | unknown
  | healthy
  | unhealthy
deriving DecidableEq

/-- One entry of `component_health` (fields of the dict built in
`register_component`). -/
structure ComponentHealth where
  status : HStatus
  lastCheck : Option ℚ
  lastHealthy : Option ℚ
  consecutiveFailures : ℕ
deriving DecidableEq

/-- The record `register_component` installs. -/
def freshHealth : ComponentHealth := ⟨.unknown, none, none, 0⟩

/-- `_mark_component_healthy`: set status healthy, stamp both times, reset
the failure counter; the Boolean is the "recovered" notification, sent iff
the previous status was unhealthy. -/
def mark_component_healthy (h : ComponentHealth) (now : ℚ) : ComponentHealth × Bool :=
  (⟨.healthy, some now, some now, 0⟩,
   if h.status = HStatus.unhealthy then true else false)

/-- `_mark_component_unhealthy`: set status unhealthy, stamp the check
time, increment the failure counter; the Boolean is the persistent-failure
alert, sent iff `failures >= 3 and previous_status != 'unhealthy'` (with
`failures` the post-increment count and `previous_status` the status from
before this call). -/
def mark_component_unhealthy (h : ComponentHealth) (now : ℚ) : ComponentHealth × Bool :=
  (⟨.unhealthy, some now, h.lastHealthy, h.consecutiveFailures + 1⟩,
   if h.consecutiveFailures + 1 ≥ 3 ∧ h.status ≠ HStatus.unhealthy then true else false)

/-- `k` consecutive failed probes: iterate `_mark_component_unhealthy`,
counting the persistent-failure alerts emitted along the way. -/
def runFailStreak (h : ComponentHealth) (now : ℚ) : ℕ → ComponentHealth × ℕ
  | 0 => (h, 0)
  | k + 1 =>
    let r := mark_component_unhealthy h now
    let rest := runFailStreak r.1 now k
    (rest.1, (if r.2 then 1 else 0) + rest.2)

/-- C1 (code bug): from any record that either is already unhealthy or has
a zeroed failure counter — which covers every reachable record, in
particular a fresh registration — **no** number of consecutive failed
probes ever emits a persistent-failure alert.  The guard
`failures >= 3 and previous_status != 'unhealthy'` is unsatisfiable inside
a streak: from the first failure on the status is `unhealthy`, and while
the status is not `unhealthy` the counter is 0, so the post-increment count
is 1 < 3.  The spec's "exactly one alert on the third failure" never
happens. -/
theorem persistent_failure_alert_never_fires (h : ComponentHealth) (now : ℚ)
    (hinv : h.status = HStatus.unhealthy ∨ h.consecutiveFailures = 0) :
    ∀ k, (runFailStreak h now k).2 = 0 := by
  intro k
  induction k generalizing h with
  | zero => rfl
  | succ k ih =>
    unfold runFailStreak mark_component_unhealthy
    dsimp only
    have halert :
        (if h.consecutiveFailures + 1 ≥ 3 ∧ h.status ≠ HStatus.unhealthy then true else false)
          = false := by
      rcases hinv with hs | hf
      · simp [hs]
      · simp [hf]
    rw [halert]
    simpa using ih ⟨.unhealthy, some now, h.lastHealthy, h.consecutiveFailures + 1⟩ (Or.inl rfl)

/-- Witness for C1: the spec's own example — three consecutive failed
probes of a freshly registered component — emits zero alerts, not one. -/
theorem persistent_failure_alert_never_fires_witness :
    (runFailStreak freshHealth 0 3).2 = 0 :=
  persistent_failure_alert_never_fires freshHealth 0 (Or.inr rfl) 3

/-- The invariant of the spec's data model: a healthy record has a zeroed
failure counter. -/
def healthyInv (h : ComponentHealth) : Prop :=
  h.status = HStatus.healthy → h.consecutiveFailures = 0

/-- C8 (confirmed): a record starts `unknown` with 0 consecutive failures;
marking healthy sets status healthy and resets the counter to 0; marking
unhealthy sets status unhealthy and increments (never resets) the counter;
and the invariant `status = healthy → consecutive_failures = 0` holds at
registration and is preserved by both supervisor operations. -/
theorem health_record_invariants (h : ComponentHealth) (now : ℚ) :
    (freshHealth.status = HStatus.unknown ∧ freshHealth.consecutiveFailures = 0)
    ∧ (mark_component_healthy h now).1.status = HStatus.healthy
    ∧ (mark_component_healthy h now).1.consecutiveFailures = 0
    ∧ (mark_component_unhealthy h now).1.status = HStatus.unhealthy
    ∧ (mark_component_unhealthy h now).1.consecutiveFailures = h.consecutiveFailures + 1
    ∧ healthyInv freshHealth
    ∧ healthyInv (mark_component_healthy h now).1
    ∧ healthyInv (mark_component_unhealthy h now).1 := by
  refine ⟨⟨rfl, rfl⟩, rfl, rfl, rfl, rfl, ?_, ?_, ?_⟩ <;>
    simp [healthyInv, freshHealth, mark_component_healthy, mark_component_unhealthy]

/-- Witness for C8 at a concrete unhealthy record with 5 failures. -/
theorem health_record_invariants_witness :
    (mark_component_healthy ⟨HStatus.unhealthy, none, none, 5⟩ 7).1.consecutiveFailures = 0
    ∧ (mark_component_unhealthy ⟨HStatus.unhealthy, none, none, 5⟩ 7).1.consecutiveFailures = 6 :=
  ⟨(health_record_invariants ⟨HStatus.unhealthy, none, none, 5⟩ 7).2.2.1,
   (health_record_invariants ⟨HStatus.unhealthy, none, none, 5⟩ 7).2.2.2.2.1⟩

/-! ## Interceptor reconnection model (`src/interceptor.py`)

The reconnect-relevant state of `Interceptor` and the reconnect portion of
its `listen()` loop: while running and disconnected, `connect()` is
attempted; a success resets the attempt counter, a failure runs
`_handle_reconnection`, which increments the counter and either gives up
(`is_running = False`) once the counter exceeds the maximum or schedules a
backoff delay of `min(300, base ** attempts)` seconds. -/

/-- Reconnection configuration (`max_reconnect_attempts`,
`reconnect_backoff_base`). -/
structure IConfig where
  maxReconnectAttempts : ℕ
  backoffBase : ℕ

/-- The defaults: 10 attempts, base 2. -/
def defaultIConfig : IConfig := ⟨10, 2⟩

/-- Reconnect-relevant interceptor state. -/
structure IState where
  isRunning : Bool
  isConnected : Bool
  reconnectAttempts : ℕ
deriving DecidableEq

/-- Freshly started interceptor inside `listen()`: running, disconnected,
counter 0. -/
def initIState : IState := ⟨true, false, 0⟩

/-- The tail of a successful `connect()`: connected, attempt counter reset
to 0. -/
def connect_success (s : IState) : IState :=
  { s with isConnected := true, reconnectAttempts := 0 }

/-- `_handle_reconnection`: increment the attempt counter; if it now
exceeds the maximum, give up (`is_running = False`, nothing scheduled),
otherwise schedule a delay of `min(300, base ** attempts)` seconds. -/
def handle_reconnection (cfg : IConfig) (s : IState) : IState × Option ℕ :=
  let a := s.reconnectAttempts + 1
  if a > cfg.maxReconnectAttempts then
    ({ s with reconnectAttempts := a, isRunning := false }, none)
  else
    ({ s with reconnectAttempts := a }, some (min 300 (cfg.backoffBase ^ a)))

/-- The reconnect portion of `listen()`, driven by a list of `connect()`
outcomes (`true` = handshake succeeded).  Returns the final state, the
number of connection attempts made, and the backoff delays scheduled, in
order.  The loop exits when `is_running` is false and returns to the
message loop on a successful connect. -/
def reconnectLoop (cfg : IConfig) (s : IState) : List Bool → IState × ℕ × List ℕ
  | [] => (s, 0, [])
  | o :: rest =>
    if s.isRunning = false then (s, 0, [])
    else if o then (connect_success s, 1, [])
    else
      let r := handle_reconnection cfg s
      let t := reconnectLoop cfg r.1 rest
      (t.1, t.2.1 + 1, r.2.toList ++ t.2.2)

/-- The delays `_handle_reconnection` schedules for attempts
`a+1, a+2, …, a+k` (while none of them exceeds the maximum). -/
def backoffDelays (cfg : IConfig) (a : ℕ) : ℕ → List ℕ
  | 0 => []
  | k + 1 => min 300 (cfg.backoffBase ^ (a + 1)) :: backoffDelays cfg (a + 1) k

/-- `backoffDelays` has one delay per attempt. -/
theorem backoffDelays_length (cfg : IConfig) :
    ∀ k a, (backoffDelays cfg a k).length = k := by
  intro k
  induction k with
  | zero => intro a; rfl
  | succ k ih =>
    intro a
    simp [backoffDelays, ih (a + 1)]

/-- Closed form of `backoffDelays` as a map over `List.range`. -/
theorem backoffDelays_eq_map (cfg : IConfig) :
    ∀ k a, backoffDelays cfg a k
      = (List.range k).map (fun i => min 300 (cfg.backoffBase ^ (a + i + 1))) := by
  intro k
  induction k with
  | zero => intro a; rfl
  | succ k ih =>
    intro a
    rw [backoffDelays, ih (a + 1), List.range_succ_eq_map, List.map_cons, List.map_map]
    refine List.cons_eq_cons.mpr ⟨by norm_num, ?_⟩
    refine List.map_congr_left ?_
    intro i _
    have : a + 1 + i + 1 = a + (i + 1) + 1 := by omega
    simp [Function.comp, this]

/-- Running `k` consecutive failed `connect()` attempts (with the counter
starting at `a` and `a + k` still within the maximum) schedules exactly the
delays `min(300, base^(a+1)) … min(300, base^(a+k))` and continues from the
state with counter `a + k`. -/
theorem reconnectLoop_failures (cfg : IConfig) :
    ∀ (k a : ℕ) (s : IState) (rest : List Bool), s.isRunning = true →
      s.reconnectAttempts = a → a + k ≤ cfg.maxReconnectAttempts →
      reconnectLoop cfg s (List.replicate k false ++ rest)
        = ((reconnectLoop cfg { s with reconnectAttempts := a + k } rest).1,
           (reconnectLoop cfg { s with reconnectAttempts := a + k } rest).2.1 + k,
           backoffDelays cfg a k
             ++ (reconnectLoop cfg { s with reconnectAttempts := a + k } rest).2.2) := by
  intro k
  induction k with
  | zero =>
    intro a s rest hr ha _
    subst ha
    have hs : { s with reconnectAttempts := s.reconnectAttempts + 0 } = s := by
      cases s
      rfl
    rw [hs]
    rfl
  | succ k ih =>
    intro a s rest hr ha hk
    have hstep : reconnectLoop cfg s (List.replicate (k + 1) false ++ rest)
        = ((reconnectLoop cfg (handle_reconnection cfg s).1 (List.replicate k false ++ rest)).1,
           (reconnectLoop cfg (handle_reconnection cfg s).1 (List.replicate k false ++ rest)).2.1 + 1,
           (handle_reconnection cfg s).2.toList
             ++ (reconnectLoop cfg (handle_reconnection cfg s).1 (List.replicate k false ++ rest)).2.2) := by
      rw [List.replicate_succ, List.cons_append, reconnectLoop]
      simp [hr]
    have hnmax : ¬ (s.reconnectAttempts + 1 > cfg.maxReconnectAttempts) := by omega
    have hhr : handle_reconnection cfg s
        = ({ s with reconnectAttempts := a + 1 }, some (min 300 (cfg.backoffBase ^ (a + 1)))) := by
      rw [handle_reconnection, if_neg hnmax, ha]
    rw [hstep, hhr]
    dsimp only
    rw [ih (a + 1) { s with reconnectAttempts := a + 1 } rest hr rfl (by omega)]
    have hst : ({ { s with reconnectAttempts := a + 1 } with reconnectAttempts := a + 1 + k } : IState)
        = { s with reconnectAttempts := a + (k + 1) } := by
      cases s
      rw [show a + 1 + k = a + (k + 1) from by omega]
    rw [hst]
    simp [backoffDelays, Nat.add_assoc]

/-- Once the interceptor has given up (`is_running = False`), the loop
exits immediately: no further connection attempt and no further wait,
whatever outcomes would follow. -/
theorem reconnectLoop_stopped (cfg : IConfig) (s : IState) (hs : s.isRunning = false) :
    ∀ outs, reconnectLoop cfg s outs = (s, 0, []) := by
  intro outs
  cases outs with
  | nil => rfl
  | cons o rest =>
    rw [reconnectLoop]
    simp [hs]

/-- C6 counterexample: with the default configuration, a sequence of 11
consecutive failed attempts makes 11 attempts but schedules only 10 delays
— not the claimed schedule `min(300, 2^1) … min(300, 2^11)` for attempts
1..11: the 11th failure gives up instead of scheduling a wait. -/
theorem backoff_eleventh_attempt_cex :
    (reconnectLoop defaultIConfig initIState (List.replicate 11 false)).2.1 = 11
    ∧ (reconnectLoop defaultIConfig initIState (List.replicate 11 false)).2.2
        ≠ (List.range 11).map (fun i => min 300 (2 ^ (i + 1))) := by
  decide

/-- C6 amended: for `k` consecutive failures with `k` at most the maximum
(default 10), the scheduled delays are exactly
`min(300, base^1), …, min(300, base^k)`, and any successful `connect()`
resets the attempt counter to 0. -/
theorem backoff_schedule (cfg : IConfig) (s : IState) (k : ℕ)
    (hr : s.isRunning = true) (h0 : s.reconnectAttempts = 0)
    (hk : k ≤ cfg.maxReconnectAttempts) :
    (reconnectLoop cfg s (List.replicate k false)).2.2
      = (List.range k).map (fun i => min 300 (cfg.backoffBase ^ (i + 1)))
    ∧ ∀ s2 : IState, (connect_success s2).reconnectAttempts = 0 := by
  constructor
  · have h := reconnectLoop_failures cfg k 0 s [] hr h0 (by omega)
    rw [List.append_nil] at h
    rw [h]
    dsimp only [reconnectLoop]
    rw [List.append_nil, backoffDelays_eq_map]
    refine List.map_congr_left ?_
    intro i _
    rw [Nat.zero_add]
  · intro s2
    rfl

/-- Witness for the amended C6: the default configuration run to the
maximum of 10 failures schedules `2, 4, …, 256, 300, 300`. -/
theorem backoff_schedule_witness :
    (reconnectLoop defaultIConfig initIState (List.replicate 10 false)).2.2
      = (List.range 10).map (fun i => min 300 (2 ^ (i + 1))) :=
  (backoff_schedule defaultIConfig initIState 10 rfl rfl (by decide)).1

/-- C7 counterexample: after exactly `max_reconnect_attempts = 10`
consecutive failures the interceptor has **not** given up — it is still
running and has scheduled a 10th backoff wait; the claim's "terminal state
after 10 consecutive failures" does not hold. -/
theorem gives_up_off_by_one_cex :
    (reconnectLoop defaultIConfig initIState (List.replicate 10 false)).1.isRunning = true
    ∧ (reconnectLoop defaultIConfig initIState (List.replicate 10 false)).2.2.length = 10 := by
  decide

/-- C7 amended: the interceptor gives up on the failure **after** the
maximum — `max_reconnect_attempts + 1` consecutive failures (11 by default)
set `is_running` to false (there is no explicit `GivenUp` state in the
code); from then on the loop makes no further attempt and schedules no
further wait until externally restarted. -/
theorem gives_up_after_max_plus_one (cfg : IConfig) (s : IState) (rest : List Bool)
    (hr : s.isRunning = true) (h0 : s.reconnectAttempts = 0) :
    (reconnectLoop cfg s (List.replicate (cfg.maxReconnectAttempts + 1) false ++ rest)).1.isRunning
        = false
    ∧ (reconnectLoop cfg s (List.replicate (cfg.maxReconnectAttempts + 1) false ++ rest)).2.1
        = cfg.maxReconnectAttempts + 1
    ∧ (reconnectLoop cfg s (List.replicate (cfg.maxReconnectAttempts + 1) false ++ rest)).2.2.length
        = cfg.maxReconnectAttempts
    ∧ ∀ outs, reconnectLoop cfg
        (reconnectLoop cfg s (List.replicate (cfg.maxReconnectAttempts + 1) false ++ rest)).1 outs
        = ((reconnectLoop cfg s (List.replicate (cfg.maxReconnectAttempts + 1) false ++ rest)).1,
           0, []) := by
  have hsplit : List.replicate (cfg.maxReconnectAttempts + 1) false ++ rest
      = List.replicate cfg.maxReconnectAttempts false ++ (false :: rest) := by
    rw [List.replicate_succ']
    simp
  have hrun := reconnectLoop_failures cfg cfg.maxReconnectAttempts 0 s (false :: rest) hr h0
    (by omega)
  set sM : IState := { s with reconnectAttempts := 0 + cfg.maxReconnectAttempts } with hsM
  have hgu : handle_reconnection cfg sM
      = ({ sM with reconnectAttempts := 0 + cfg.maxReconnectAttempts + 1, isRunning := false },
         none) := by
    rw [handle_reconnection, if_pos (by simp [hsM])]
  have hsMrun : sM.isRunning = true := hr
  have honestep : reconnectLoop cfg sM (false :: rest)
      = ({ sM with reconnectAttempts := 0 + cfg.maxReconnectAttempts + 1, isRunning := false },
         1, []) := by
    rw [reconnectLoop, if_neg (by rw [hsMrun]; simp)]
    rw [if_neg (by simp)]
    rw [hgu]
    dsimp only
    rw [reconnectLoop_stopped cfg _ rfl rest]
    rfl
  rw [hsplit, hrun, honestep]
  refine ⟨rfl, by dsimp only; omega, by simp [backoffDelays_length], ?_⟩
  intro outs
  exact reconnectLoop_stopped cfg _ rfl outs

/-- Witness for the amended C7: with the defaults, 11 consecutive failures
stop the interceptor for good. -/
theorem gives_up_after_max_plus_one_witness :
    (reconnectLoop defaultIConfig initIState (List.replicate 11 false ++ [])).1.isRunning = false :=
  (gives_up_after_max_plus_one defaultIConfig initIState [] rfl rfl).1

/-! ## Python dictionary heap model (accessor copy semantics)

`ArbitrageEngine.get_stats`, `Interceptor.get_stats`,
`HealthMonitor.get_component_status` and `HealthMonitor.get_all_status`
all return `dict.copy()` results.  `dict.copy()` is a *shallow* copy: a
fresh top-level dict object whose values are the very same objects.  To
reason about the resulting aliasing we model the Python object store
explicitly: an address-indexed heap of dict objects whose values are
primitives or references to other dict objects. -/

/-- Heap address of a Python dict object. -/
abbrev Addr : Type := ℕ

/-- A Python value held in a dict: a primitive, `None`, or a reference to
another dict object. -/
inductive DVal where
  | num (z : ℤ)
  | rat (x : ℚ)
  | str (s : String)
  | boolv (b : Bool)
  | nil
  | ref (a : Addr)
deriving DecidableEq

/-- A dict object's contents: an association list key → value. -/
abbrev Dict : Type := List (String × DVal)

/-- The Python object heap: dict contents per address, plus the next fresh
address (every allocated object lives below `next`). -/
structure Heap where
  mem : Addr → Option Dict
  next : ℕ

/-- Allocate a fresh dict object at address `next`. -/
def alloc (h : Heap) (d : Dict) : Heap × Addr :=
  (⟨fun a => if a = (h.next : Addr) then some d else h.mem a, h.next + 1⟩, h.next)

/-- Association-list lookup, `d[k]`. -/
def lookupEntry : Dict → String → Option DVal
  | [], _ => none
  | (k2, v2) :: rest, k => if k2 = k then some v2 else lookupEntry rest k

/-- Association-list update, `d[k] = v`. -/
def setEntry : Dict → String → DVal → Dict
  | [], k, v => [(k, v)]
  | (k2, v2) :: rest, k, v =>
    if k2 = k then (k, v) :: rest else (k2, v2) :: setEntry rest k v

/-- In-place mutation `obj[k] = v` of the dict object at address `a`. -/
def dictSet (h : Heap) (a : Addr) (k : String) (v : DVal) : Heap :=
  ⟨fun x => if x = a then (h.mem a).map (fun d => setEntry d k v) else h.mem x, h.next⟩

/-- `dict.copy()`: a fresh dict object with the same entries — the values,
references included, are shared (a shallow copy). -/
def copyDict (h : Heap) (a : Addr) : Heap × Addr :=
  alloc h ((h.mem a).getD [])

/-- `ArbitrageEngine.get_stats`: `return self.stats.copy()`. -/
def engine_get_stats (h : Heap) (aStats : Addr) : Heap × Addr :=
  copyDict h aStats

/-- `Interceptor.get_stats`: copy `self.stats`, then add the derived
entries to the copy: `is_connected`, `reconnect_attempts`, and — when a
message has been seen — `seconds_since_last_message`, an `int()` whose
truncation coincides with the floor for the nonnegative ages that occur. -/
def interceptor_get_stats (h : Heap) (aStats : Addr) (isConn : Bool)
    (attempts : ℤ) (lastMsg : Option ℚ) (now : ℚ) : Heap × Addr :=
  let r := copyDict h aStats
  let h1 := dictSet r.1 r.2 ("is_connected") (DVal.boolv isConn)
  let h2 := dictSet h1 r.2 ("reconnect_attempts") (DVal.num attempts)
  match lastMsg with
  | some t => (dictSet h2 r.2 ("seconds_since_last_message") (DVal.num ⌊now - t⌋), r.2)
  | none => (h2, r.2)

/-- `HealthMonitor.get_component_status`:
`self.component_health.get(name, {'status': 'unknown'}).copy()` — always a
fresh dict, copying either the named record or the default literal. -/
def get_component_status (h : Heap) (aCH : Addr) (name : String) : Heap × Addr :=
  match lookupEntry ((h.mem aCH).getD []) name with
  | some (DVal.ref a) => copyDict h a
  | _ => alloc h [(("status"), DVal.str ("unknown"))]

/-- `HealthMonitor.get_all_status`: `self.component_health.copy()` — a
shallow copy whose values still reference the live per-component records. -/
def get_all_status (h : Heap) (aCH : Addr) : Heap × Addr :=
  copyDict h aCH

/-- The supervisor's view of `component_health[name][fld]`, reading through
the top-level dict at `top` and the record reference stored under `name`. -/
def readField (h : Heap) (top : Addr) (name fld : String) : Option DVal :=
  match lookupEntry ((h.mem top).getD []) name with
  | some (DVal.ref a) => lookupEntry ((h.mem a).getD []) fld
  | _ => none

/-- A concrete supervisor heap: the health record of component `engine`
lives at address 0 (`status: healthy`, `consecutive_failures: 0`), and
`component_health` is the dict at address 1 referencing it. -/
def cexHeap : Heap :=
  ⟨fun a =>
    if a = (0 : ℕ) then
      some [(("status"), DVal.str ("healthy")), (("consecutive_failures"), DVal.num 0)]
    else if a = (1 : ℕ) then some [(("engine"), DVal.ref (0 : ℕ))]
    else none,
   2⟩

/-- C10 counterexample: the dict returned by `get_all_status` holds the
**same** record object the supervisor holds (`DVal.ref 0`), and mutating
that record through the returned dict changes the supervisor's own view of
the component's status from `healthy` to `unhealthy`. -/
theorem get_all_status_aliases_cex :
    lookupEntry (((get_all_status cexHeap (1 : ℕ)).1.mem (get_all_status cexHeap (1 : ℕ)).2).getD [])
        ("engine") = some (DVal.ref (0 : ℕ))
    ∧ readField (dictSet (get_all_status cexHeap (1 : ℕ)).1 (0 : ℕ) ("status")
          (DVal.str ("unhealthy"))) (1 : ℕ) ("engine") ("status")
        = some (DVal.str ("unhealthy"))
    ∧ readField cexHeap (1 : ℕ) ("engine") ("status") = some (DVal.str ("healthy")) := by
  decide

/-- For any already-allocated address, allocation neither moves nor changes
it, the fresh object is at the old `next`, and mutating the fresh object
leaves the old address untouched. -/
theorem alloc_fresh (h : Heap) (a : Addr) (k : String) (v : DVal) (ha : (a : ℕ) < h.next) :
    ∀ d : Dict, (alloc h d).1.mem a = h.mem a
      ∧ (alloc h d).2 = (h.next : Addr)
      ∧ (dictSet (alloc h d).1 (alloc h d).2 k v).mem a = h.mem a := by
  intro d
  have hne : a ≠ (h.next : Addr) := by
    intro hcontra
    subst hcontra
    exact lt_irrefl _ ha
  refine ⟨?_, rfl, ?_⟩
  · simp [alloc, hne]
  · simp [alloc, dictSet, hne]

/-- Mutating one dict object leaves every other address unchanged. -/
theorem dictSet_mem_ne (h : Heap) (a2 a : Addr) (k : String) (v : DVal) (hne : a ≠ a2) :
    (dictSet h a2 k v).mem a = h.mem a := by
  simp [dictSet, hne]

/-- C10 amended: `engine.get_stats`, `interceptor.get_stats` and
`get_component_status` return fresh top-level dicts and the calls modify no
existing object, so mutating their return values leaves the components'
state unchanged; `get_all_status` also modifies nothing and returns a fresh
top-level dict, but (see the counterexample) its values alias the live
health records, so mutation *through* its entries does reach supervisor
state. -/
theorem accessors_return_copies (h : Heap) (aStats aCH a : Addr) (k : String) (v : DVal)
    (name : String) (isConn : Bool) (attempts : ℤ) (lastMsg : Option ℚ) (now : ℚ)
    (ha : (a : ℕ) < h.next) :
    ((engine_get_stats h aStats).1.mem a = h.mem a
      ∧ (engine_get_stats h aStats).2 = (h.next : Addr)
      ∧ (dictSet (engine_get_stats h aStats).1 (engine_get_stats h aStats).2 k v).mem a
          = h.mem a)
    ∧ ((interceptor_get_stats h aStats isConn attempts lastMsg now).1.mem a = h.mem a
      ∧ (interceptor_get_stats h aStats isConn attempts lastMsg now).2 = (h.next : Addr)
      ∧ (dictSet (interceptor_get_stats h aStats isConn attempts lastMsg now).1
           (interceptor_get_stats h aStats isConn attempts lastMsg now).2 k v).mem a
          = h.mem a)
    ∧ ((get_component_status h aCH name).1.mem a = h.mem a
      ∧ (get_component_status h aCH name).2 = (h.next : Addr)
      ∧ (dictSet (get_component_status h aCH name).1 (get_component_status h aCH name).2 k v).mem a
          = h.mem a)
    ∧ ((get_all_status h aCH).1.mem a = h.mem a
      ∧ (get_all_status h aCH).2 = (h.next : Addr)) := by
  have hne : a ≠ (h.next : Addr) := by
    intro hcontra
    subst hcontra
    exact lt_irrefl _ ha
  refine ⟨alloc_fresh h a k v ha _, ⟨?_, ?_, ?_⟩, ⟨?_, ?_, ?_⟩, ?_, ?_⟩
  · unfold interceptor_get_stats copyDict
    cases lastMsg <;> simp [alloc, dictSet, hne]
  · unfold interceptor_get_stats copyDict
    cases lastMsg <;> rfl
  · unfold interceptor_get_stats copyDict
    cases lastMsg <;> simp [alloc, dictSet, hne]
  · unfold get_component_status
    cases hlu : lookupEntry ((h.mem aCH).getD []) name with
    | none => exact (alloc_fresh h a k v ha _).1
    | some dv => cases dv <;> exact (alloc_fresh h a k v ha _).1
  · unfold get_component_status
    cases hlu : lookupEntry ((h.mem aCH).getD []) name with
    | none => rfl
    | some dv => cases dv <;> rfl
  · unfold get_component_status
    cases hlu : lookupEntry ((h.mem aCH).getD []) name with
    | none => exact (alloc_fresh h a k v ha _).2.2
    | some dv => cases dv <;> exact (alloc_fresh h a k v ha _).2.2
  · exact (alloc_fresh h a k v ha _).1
  · exact (alloc_fresh h a k v ha _).2.1

/-- Witness for the amended C10 on the concrete supervisor heap. -/
theorem accessors_return_copies_witness :
    (get_all_status cexHeap (1 : ℕ)).2 = (2 : ℕ)
    ∧ (dictSet (engine_get_stats cexHeap (0 : ℕ)).1 (engine_get_stats cexHeap (0 : ℕ)).2
        ("x") DVal.nil).mem (0 : ℕ) = cexHeap.mem (0 : ℕ) :=
  ⟨(accessors_return_copies cexHeap 0 1 0 ("x") DVal.nil ("engine") true 3 none 0
      (by decide)).2.2.2.2,
   (accessors_return_copies cexHeap 0 1 0 ("x") DVal.nil ("engine") true 3 none 0
      (by decide)).1.2.2⟩

end Acheron
